import Mathlib

/-!
Verification development for the `sentry_tunnel` envelope pipeline
(`src/envelope.rs`, `src/server.rs`).

The Rust code is shallowly embedded: byte buffers are `List Nat` (each
element a byte value), Rust `String`/`str` values are Lean `String`s,
fallible operations return `Option`/`Except`, and the two external
collaborators that the sources only use through their interface —
`serde_json::from_str` (JSON line parsing) and `sentry_types::Dsn::from_str`
(descriptor parsing) — are passed in as explicit function parameters
`jp : String → Option Json` and `dp : String → Option Dsn`, so every
theorem about the scanner holds for an arbitrary implementation of those
two external parsers.
-/

/-- Propositional equality on `Except` results is decidable (needed to
evaluate concrete runs of the fallible pipeline stages). -/
instance {ε α : Type} [DecidableEq ε] [DecidableEq α] : DecidableEq (Except ε α)
  | .ok a, .ok b =>
    if h : a = b then .isTrue (by rw [h])
    else .isFalse (fun hc => h (Except.ok.inj hc))
  | .ok _, .error _ => .isFalse (fun hc => Except.noConfusion hc)
  | .error _, .ok _ => .isFalse (fun hc => Except.noConfusion hc)
  | .error a, .error b =>
    if h : a = b then .isTrue (by rw [h])
    else .isFalse (fun hc => h (Except.error.inj hc))

/-! ## UTF-8 validity model

`String::from_utf8` / `Utf8Error::valid_up_to` semantics: a byte buffer is
scanned greedily, one UTF-8 encoded character at a time; `valid_up_to` is
the number of bytes before the first position at which no valid character
starts. -/

/-- Is `b` a UTF-8 continuation byte (`0x80 ..= 0xBF`)? -/
def contB (b : Nat) : Bool := 0x80 ≤ b && b ≤ 0xBF

/-- Admissible second byte of a 3-byte sequence headed by `b1`
(surrogate code points `0xD800 ..= 0xDFFF` and overlong forms excluded,
exactly as in the UTF-8 specification used by Rust). -/
def utf8Valid3 (b1 b2 : Nat) : Bool :=
  if b1 = 0xE0 then 0xA0 ≤ b2 && b2 ≤ 0xBF
  else if b1 = 0xED then 0x80 ≤ b2 && b2 ≤ 0x9F
  else contB b2

/-- Admissible second byte of a 4-byte sequence headed by `b1`
(code points above `0x10FFFF` and overlong forms excluded). -/
def utf8Valid4 (b1 b2 : Nat) : Bool :=
  if b1 = 0xF0 then 0x90 ≤ b2 && b2 ≤ 0xBF
  else if b1 = 0xF4 then 0x80 ≤ b2 && b2 ≤ 0x8F
  else contB b2

/-- Try to decode one UTF-8 character at the head of the buffer.
Returns `(code point, number of bytes consumed)`, or `none` when no valid
character starts here. -/
def utf8DecodeOne : List Nat → Option (Nat × Nat)
  | [] => none
  | b1 :: rest =>
    if b1 ≤ 0x7F then some (b1, 1)
    else if 0xC2 ≤ b1 && b1 ≤ 0xDF then
      match rest with
      | b2 :: _ =>
        if contB b2 then some ((b1 - 0xC0) * 0x40 + (b2 - 0x80), 2) else none
      | [] => none
    else if 0xE0 ≤ b1 && b1 ≤ 0xEF then
      match rest with
      | b2 :: b3 :: _ =>
        if utf8Valid3 b1 b2 && contB b3 then
          some ((b1 - 0xE0) * 0x1000 + (b2 - 0x80) * 0x40 + (b3 - 0x80), 3)
        else none
      | _ => none
    else if 0xF0 ≤ b1 && b1 ≤ 0xF4 then
      match rest with
      | b2 :: b3 :: b4 :: _ =>
        if utf8Valid4 b1 b2 && contB b3 && contB b4 then
          some ((b1 - 0xF0) * 0x40000 + (b2 - 0x80) * 0x1000 +
                (b3 - 0x80) * 0x40 + (b4 - 0x80), 4)
        else none
      | _ => none
    else none

/-- Fuel-driven greedy scan; each step consumes at least one byte, so
`fuel = l.length` always suffices (`utf8ValidUpToAux_fuel` below). -/
def utf8ValidUpToAux : Nat → List Nat → Nat
  | 0, _ => 0
  | fuel + 1, l =>
    match utf8DecodeOne l with
    | none => 0
    | some (_, k) => k + utf8ValidUpToAux fuel (l.drop k)

/-- `Utf8Error::valid_up_to`: length of the longest valid-UTF-8 prefix. -/
def utf8ValidUpTo (l : List Nat) : Nat := utf8ValidUpToAux l.length l

/-- Whether `String::from_utf8` succeeds on this buffer. -/
def utf8IsValid (l : List Nat) : Bool := utf8ValidUpTo l == l.length

/-- Fuel-driven full decode to a character list; `none` models a
`String::from_utf8` failure. -/
def utf8DecodeAux : Nat → List Nat → Option (List Char)
  | _, [] => some []
  | 0, _ :: _ => none
  | fuel + 1, l =>
    match utf8DecodeOne l with
    | none => none
    | some (cp, k) =>
      (utf8DecodeAux fuel (l.drop k)).map (fun cs => Char.ofNat cp :: cs)

/-- `String::from_utf8` as a partial decode: `some` exactly when the whole
buffer is valid UTF-8; on success the Rust `String` owns the same bytes. -/
def utf8Decode (l : List Nat) : Option String :=
  (utf8DecodeAux l.length l).map (fun cs => String.mk cs)

/-! ### `server.rs` lines 116-121: the safe-text view

```rust
let max_length = match String::from_utf8(full_body.to_vec()) {
    Ok(body_content) => body_content.len(),
    Err(e) => e.utf8_error().valid_up_to(),
};
let is_safe = max_length == original_body.len();
```
In the `Ok` branch the produced `String` owns exactly the input bytes, so
`body_content.len()` is the buffer length. -/

def maxLengthOf (l : List Nat) : Nat :=
  if utf8IsValid l then l.length else utf8ValidUpTo l

def isSafeOf (l : List Nat) : Bool := maxLengthOf l == l.length

/-! ## Rust `str::lines` model

Lines are terminated by `\n`; a terminated line additionally drops a single
trailing `\r`; a final unterminated line is returned as is; a trailing line
terminator does not produce an extra empty line. -/

def nlChar : Char := Char.ofNat 10
def crChar : Char := Char.ofNat 13
def lbChar : Char := Char.ofNat 123
def rbChar : Char := Char.ofNat 125

/-- Drop one trailing carriage return, if present. -/
def stripCR (l : List Char) : List Char :=
  match l.reverse with
  | c :: rest => if c = crChar then rest.reverse else l
  | [] => l

/-- Split off the chunk before the first `\n`; the second component is
`some rest` when a `\n` was found. -/
def takeLine : List Char → List Char × Option (List Char)
  | [] => ([], none)
  | c :: cs =>
    if c = nlChar then ([], some cs)
    else
      let p := takeLine cs
      (c :: p.1, p.2)

/-- Fuel-driven splitting; each step past a `\n` consumes at least one
character, so `fuel = cs.length` suffices. -/
def rustLinesAux : Nat → List Char → List (List Char)
  | _, [] => []
  | 0, cs => [cs]
  | fuel + 1, cs =>
    match takeLine cs with
    | (l, none) => [l]
    | (l, some rest) => stripCR l :: rustLinesAux fuel rest

/-- Rust `str::lines`, collected into a list. -/
def rustLines (s : String) : List String :=
  (rustLinesAux s.data.length s.data).map (fun cs => String.mk cs)

/-! ## Rust `str::trim`, `split(',').next()` and `u64::from_str` models -/

/-- The Unicode `White_Space` code points, as used by Rust `char::is_whitespace`. -/
def isRustWhitespace (c : Char) : Bool :=
  let n := c.toNat
  n = 0x09 || n = 0x0A || n = 0x0B || n = 0x0C || n = 0x0D || n = 0x20 ||
  n = 0x85 || n = 0xA0 || n = 0x1680 || (0x2000 ≤ n && n ≤ 0x200A) ||
  n = 0x2028 || n = 0x2029 || n = 0x202F || n = 0x205F || n = 0x3000

/-- Rust `str::trim`. -/
def rustTrim (s : String) : String :=
  String.mk (((s.data.dropWhile isRustWhitespace).reverse.dropWhile
    isRustWhitespace).reverse)

/-- Rust `s.split(',').next().unwrap()`: the prefix before the first comma
(the iterator always yields at least one item). -/
def firstCommaField (s : String) : String :=
  String.mk (s.data.takeWhile (fun c => c ≠ ','))

/-- Rust `u64::from_str`: optional leading `+`, then one or more ASCII
digits, value bounded by `u64::MAX`. -/
def rustParseU64 (s : String) : Option Nat :=
  let cs : List Char :=
    match s.data with
    | '+' :: rest => rest
    | cs => cs
  if cs.isEmpty || !(cs.all Char.isDigit) then none
  else
    let n := cs.foldl (fun a c => a * 10 + (c.toNat - 48)) 0
    if n < 2 ^ 64 then some n else none

/-- UTF-8 bytes of an ASCII-only string (used to build concrete buffers). -/
def asciiBytes (s : String) : List Nat := s.data.map Char.toNat

/-! ## `serde_json::Value`, restricted to the operations the code uses -/

inductive Json where
  | null
  | bool (b : Bool)
  | num (n : Int)
  | str (s : String)
  | arr (elems : List Json)
  | obj (fields : List (String × Json))

/-- `Value::get(key)`: member lookup on objects, `None` on anything else. -/
def Json.get : Json → String → Option Json
  | .obj fields, k => fields.lookup k
  | _, _ => none

/-- `Value::as_str`. -/
def Json.asStr : Json → Option String
  | .str s => some s
  | _ => none

/-! ## Data model

`sentry_types::Dsn` is an external crate type; the sources only use the
accessors `host()`, `public_key()`, `project_id().value()` and
`envelope_api_url()`, so it is embedded as a record of those observations. -/

structure Dsn where
  host : String
  public_key : String
  project_id : Nat
  envelope_api_url : String
  deriving DecidableEq, Repr

/-- `config.rs`: `pub struct Host(pub String)` (the sources only access its
field `0`, here `val`). -/
structure Host where
  val : String
  deriving DecidableEq, Repr

/-- Modelled from the spec: `Config` lives in `src/config.rs`, which is not
among the provided sources. The spec describes the policy configuration as
"an ordered set of allowed hosts and a set/range of allowed project
identifiers" plus the trust-XFF flag; the fields `remote_hosts` and
`trust_x_forwarded_for` are also pinned down by their uses in
`server.rs`. -/
structure Config where
  trust_x_forwarded_for : Bool
  remote_hosts : List Host
  project_ids : List Nat
  deriving DecidableEq, Repr

/-- Modelled from the spec: `Config::project_id_is_allowed` lives in
`src/config.rs`, which is not among the provided sources. The spec (§4.4)
describes it as a "membership test against the configured project
allow-list". -/
def Config.project_id_is_allowed (c : Config) (id : Nat) : Bool :=
  c.project_ids.contains id

/-- `envelope.rs`: `pub struct SentryEnvelope`. -/
structure SentryEnvelope where
  raw_body : List Nat
  dsn : Dsn
  is_safe : Bool
  x_forwarded_for : String
  deriving DecidableEq, Repr

/-- `envelope.rs`: `pub enum BodyError` (the `serde_json::Error` payload of
`InvalidHeaderJson` carries no information the control flow inspects and is
dropped). -/
inductive BodyError where
  | InvalidNumberOfLines
  | InvalidHeaderJson
  | MissingDsnKeyInHeader
  | InvalidDsnValue
  | InvalidProjectId
  deriving DecidableEq, Repr

/-- `server.rs`: `pub enum HeaderError`. -/
inductive HeaderError where
  | MissingContentLength
  | ContentIsTooBig
  | CouldNotParseContentLength
  | InvalidHost
  deriving DecidableEq, Repr

/-- The `anyhow::Error` values `tunnel_handler` can return: one of the two
enums above, a `Dsn::from_str` parse error, or a `String::from_utf8`
error. -/
inductive HandlerError where
  | headerErr (e : HeaderError)
  | bodyErr (e : BodyError)
  | dsnParseError
  | utf8Error
  deriving DecidableEq, Repr

/-- `envelope.rs` `dsn_host_is_valid`:
```rust
let envelope_host = self.dsn.host().to_string();
host.iter().any(|x| x.0 == envelope_host)
``` -/
def SentryEnvelope.dsn_host_is_valid (e : SentryEnvelope) (host : List Host) : Bool :=
  host.any (fun x => x.val == e.dsn.host)

/-! ## EnvelopeScanner: `try_new_from_body` -/

/-- The `for` loop of `try_new_from_body`, with `n` the iteration budget
`min(body.lines().count(), 50)` and `lines` the remaining iterator state.
`.ok (some d)` is the `break` with a parsed descriptor, `.ok none` is
normal loop exit without one. -/
def scan_lines (jp : String → Option Json) (dp : String → Option Dsn) :
    List String → Nat → Except HandlerError (Option Dsn)
  | _, 0 => .ok none
  | [], _ + 1 => .error (.bodyErr .InvalidNumberOfLines)
  | line :: rest, n + 1 =>
    match jp line with
    | none => .error (.bodyErr .InvalidHeaderJson)
    | some header =>
      match header.get "dsn" with
      | none => scan_lines jp dp rest n
      | some dsnValue =>
        match dsnValue.asStr with
        | none => .error (.bodyErr .InvalidDsnValue)
        | some dsnStr =>
          match dp dsnStr with
          | none => .error .dsnParseError
          | some d => .ok (some d)

/-- `envelope.rs` `SentryEnvelope::try_new_from_body`, parameterized by the
external JSON parser `jp` (`serde_json::from_str`) and descriptor parser
`dp` (`Dsn::from_str`). -/
def try_new_from_body (jp : String → Option Json) (dp : String → Option Dsn)
    (body : String) (full_body : List Nat) (is_safe : Bool)
    (x_forwarded_for : String) : Except HandlerError SentryEnvelope :=
  let ls := rustLines body
  match scan_lines jp dp ls (min ls.length 50) with
  | .error e => .error e
  | .ok (some dsn) =>
      .ok { raw_body := full_body, dsn := dsn, is_safe := is_safe,
            x_forwarded_for := x_forwarded_for }
  | .ok none => .error (.bodyErr .MissingDsnKeyInHeader)

/-! ## Forwarder: the pure part of `forward` -/

/-- The outbound request built by `forward` (method, URI, the two headers it
sets, and the body bytes). -/
structure OutRequest where
  method : String
  uri : String
  contentType : String
  xForwardedFor : String
  body : List Nat
  deriving DecidableEq, Repr

/-- Request construction in `envelope.rs` `forward`. The body expression is
```rust
if !self.is_safe { self.raw_body.clone() }
else { String::from_utf8(self.raw_body.clone()).unwrap().into_bytes() }
```
`String::from_utf8(v)` succeeds exactly when `v` is valid UTF-8 and then the
`String` owns `v` itself, so `into_bytes` gives back `v`; `.unwrap()` on the
failure case panics, modelled as `none`. -/
def forward_request (e : SentryEnvelope) : Option OutRequest :=
  let uri := e.dsn.envelope_api_url ++ "?sentry_key=" ++ e.dsn.public_key
  let bodyOpt : Option (List Nat) :=
    if !e.is_safe then some e.raw_body
    else if utf8IsValid e.raw_body then some e.raw_body else none
  match bodyOpt with
  | none => none
  | some b =>
      some { method := "POST", uri := uri,
             contentType := "application/x-sentry-envelope",
             xForwardedFor := e.x_forwarded_for, body := b }

/-- `format!("{:?}", bytes)` for a `Vec<u8>`. -/
def rustDebugBytes (l : List Nat) : String :=
  let rec go : List Nat → String
    | [] => ""
    | [n] => toString n
    | n :: rest => toString n ++ ", " ++ go rest
  "[" ++ go l ++ "]"

/-- The body representation chosen by the `debug!` call in `forward`,
as a function of the envelope and the request body:
```rust
if !self.is_safe { format!("<{} bytes>", request.body().len()) }
else if request.body().is_empty() { format!("{:?}", self.raw_body) }
else { format!("<{} bytes> (safe)", request.body().len()) }
``` -/
def debugLogBody (e : SentryEnvelope) (reqBody : List Nat) : String :=
  if !e.is_safe then "<" ++ toString reqBody.length ++ " bytes>"
  else if reqBody.isEmpty then rustDebugBytes e.raw_body
  else "<" ++ toString reqBody.length ++ " bytes> (safe)"

/-- The full debug log record emitted by `forward` before sending. -/
def debugLogLine (e : SentryEnvelope) (r : OutRequest) : String :=
  "Sending HTTP " ++ r.method ++ " " ++ r.uri ++ " - body=" ++
    debugLogBody e r.body

/-! ## RequestGate and the request handler (`server.rs`) -/

/-- `server.rs`: `pub const MAX_CONTENT_SIZE: u64 = 10_000_000;` -/
def MAX_CONTENT_SIZE : Nat := 10000000

/-- `server.rs` `check_content_length`. The header value is modelled as the
string hyper's `HeaderValue::to_str` yields (`to_str` failures on
non-visible-ASCII bytes land in the same `CouldNotParseContentLength`
error as `u64::from_str` failures, so folding them into `rustParseU64`
loses nothing); `none` models an absent header. -/
def check_content_length (contentLength : Option String) :
    Except HeaderError Unit :=
  match contentLength with
  | some v =>
    match rustParseU64 v with
    | none => .error .CouldNotParseContentLength
    | some n =>
      if n > MAX_CONTENT_SIZE then .error .ContentIsTooBig else .ok ()
  | none => .error .MissingContentLength

/-- The inbound data `tunnel_handler` consumes: the `Content-Length` header,
the `X-Forwarded-For` header, the fully read body bytes and the socket peer
address. -/
structure InboundRequest where
  contentLength : Option String
  xffHeader : Option String
  body : List Nat
  clientAddr : String
  deriving DecidableEq, Repr

/-- `server.rs` `tunnel_handler` lines 105-114: the resolved client
address. -/
def resolveXff (cfg : Config) (req : InboundRequest) : String :=
  if cfg.trust_x_forwarded_for then
    match req.xffHeader with
    | some s => rustTrim (firstCommaField s)
    | none => req.clientAddr
  else req.clientAddr

/-- `server.rs` `tunnel_handler` lines 116-133: compute the safe-text view
of the body and build the envelope. `.error .utf8Error` models the `?` on
the second `String::from_utf8`. -/
def envelopeStage (jp : String → Option Json) (dp : String → Option Dsn)
    (cfg : Config) (req : InboundRequest) :
    Except HandlerError SentryEnvelope :=
  let full_body := req.body
  let original_body := full_body
  let x_forwarded_for := resolveXff cfg req
  let max_length := maxLengthOf full_body
  let is_safe := max_length == original_body.length
  let partial_body := full_body.take max_length
  match utf8Decode (if !is_safe then partial_body else original_body) with
  | none => .error .utf8Error
  | some body_content =>
      try_new_from_body jp dp body_content original_body is_safe
        x_forwarded_for

/-- The observable outcome of one `tunnel_handler` run, up to the external
outbound send: either the Forwarder was invoked with a fully built outbound
request, or the `unwrap` inside `forward` panicked, or the request
terminated with an error that `post_tunnel_handler` turns into a response. -/
inductive HandlerOutcome where
  | forwarded (r : OutRequest)
  | forwardPanic
  | errorResp (e : HandlerError)
  deriving DecidableEq, Repr

/-- Did this outcome invoke the Forwarder (i.e. reach `forward`)? -/
def HandlerOutcome.invokedForward : HandlerOutcome → Bool
  | .forwarded _ => true
  | .forwardPanic => true
  | .errorResp _ => false

/-- `server.rs` `tunnel_handler` lines 135-164: the policy checks and the
call to `forward`. -/
def policyAndForward (cfg : Config) (e : SentryEnvelope) : HandlerOutcome :=
  if cfg.project_id_is_allowed e.dsn.project_id then
    if e.dsn_host_is_valid cfg.remote_hosts then
      match forward_request e with
      | some r => .forwarded r
      | none => .forwardPanic
    else .errorResp (.headerErr .InvalidHost)
  else .errorResp (.bodyErr .InvalidProjectId)

/-- `server.rs` `tunnel_handler`, composed from its stages in source
order. -/
def tunnel_handler (jp : String → Option Json) (dp : String → Option Dsn)
    (cfg : Config) (req : InboundRequest) : HandlerOutcome :=
  match check_content_length req.contentLength with
  | .error e => .errorResp (.headerErr e)
  | .ok () =>
    match envelopeStage jp dp cfg req with
    | .error e => .errorResp e
    | .ok env => policyAndForward cfg env

/-- `server.rs` `post_tunnel_handler`: every `Err` out of `tunnel_handler`
becomes a `StatusCode::BAD_REQUEST` (400) response. -/
def errorStatus (_ : HandlerError) : Nat := 400

/-- `true` unless the result is the `InvalidNumberOfLines` error. -/
def notInvalidLineCount (r : Except HandlerError SentryEnvelope) : Bool :=
  match r with
  | .error (.bodyErr .InvalidNumberOfLines) => false
  | _ => true

/-! ## Concrete test instances

A toy instantiation of the two external parsers, covering exactly the lines
used in the concrete scenarios below (the spec §8 scenario descriptor
`https://KEY@host.example/42`). -/

def dsnExampleStr : String := "https://KEY@host.example/42"

def dsnLine : String := "\x7b\"dsn\":\"https://KEY@host.example/42\"\x7d"

def emptyObjLine : String := "\x7b\x7d"

def testJp : String → Option Json := fun l =>
  if l = emptyObjLine then some (Json.obj [])
  else if l = dsnLine then some (Json.obj [("dsn", Json.str dsnExampleStr)])
  else none

def dsn0 : Dsn :=
  { host := "host.example", public_key := "KEY", project_id := 42,
    envelope_api_url := "https://host.example/api/42/envelope/" }

def testDp : String → Option Dsn := fun s =>
  if s = dsnExampleStr then some dsn0 else none

def cfg0 : Config :=
  { trust_x_forwarded_for := false, remote_hosts := [⟨"host.example"⟩],
    project_ids := [42] }

def cfgBad : Config :=
  { trust_x_forwarded_for := false, remote_hosts := [⟨"other.example"⟩],
    project_ids := [7] }

def req0 : InboundRequest :=
  { contentLength := some "100", xffHeader := none,
    body := asciiBytes dsnLine, clientAddr := "1.2.3.4" }

def r0 : OutRequest :=
  { method := "POST",
    uri := "https://host.example/api/42/envelope/?sentry_key=KEY",
    contentType := "application/x-sentry-envelope",
    xForwardedFor := "1.2.3.4", body := asciiBytes dsnLine }

def env0 : SentryEnvelope :=
  { raw_body := asciiBytes dsnLine, dsn := dsn0, is_safe := true,
    x_forwarded_for := "1.2.3.4" }

/-- `n` copies of a character list, concatenated. -/
def repChars : Nat → List Char → List Char
  | 0, _ => []
  | n + 1, cs => cs ++ repChars n cs

/-- A body of 60 lines, each the empty JSON object (spec §8 scenario). -/
def body60 : String := String.mk (repChars 60 [lbChar, rbChar, nlChar])

/-- A body of 3 such lines: line exhaustion below the 50-line cap. -/
def body3 : String := String.mk (repChars 3 [lbChar, rbChar, nlChar])

/-- A body whose first line is not valid JSON and whose second line carries
a valid descriptor. -/
def cexBody : String := "x\n\x7b\"dsn\":\"https://KEY@host.example/42\"\x7d"

/-- An envelope with an empty body and the safety flag false (the
"empty-but-invalid" combination named by the spec). -/
def e9 : SentryEnvelope :=
  { raw_body := [], dsn := dsn0, is_safe := false, x_forwarded_for := "c" }

/-- An envelope whose safety flag claims valid text over a non-UTF-8
buffer. -/
def e8 : SentryEnvelope :=
  { raw_body := [255], dsn := dsn0, is_safe := true, x_forwarded_for := "c" }

/-! ## Supporting lemmas: UTF-8 scan bounds -/

theorem utf8DecodeOne_bounds : ∀ (l : List Nat) (cp k : Nat),
    utf8DecodeOne l = some (cp, k) → 1 ≤ k ∧ k ≤ l.length := by
  intro l cp k h
  unfold utf8DecodeOne at h
  repeat' split at h
  all_goals simp_all
  all_goals omega

theorem utf8ValidUpToAux_le : ∀ (fuel : Nat) (l : List Nat),
    utf8ValidUpToAux fuel l ≤ l.length := by
  intro fuel
  induction fuel with
  | zero => intro l; simp [utf8ValidUpToAux]
  | succ n ih =>
    intro l
    unfold utf8ValidUpToAux
    split
    · simp
    · rename_i cp k heq
      have hb := utf8DecodeOne_bounds l cp k heq
      have hd := ih (l.drop k)
      simp only [List.length_drop] at hd
      omega

theorem utf8ValidUpTo_le (l : List Nat) : utf8ValidUpTo l ≤ l.length :=
  utf8ValidUpToAux_le l.length l

/-- The fuel argument is irrelevant once it covers the buffer length, so
`utf8ValidUpTo` really is the fuel-free greedy scan. -/
theorem utf8ValidUpToAux_fuel : ∀ (f1 : Nat), ∀ (f2 : Nat) (l : List Nat),
    l.length ≤ f1 → l.length ≤ f2 →
    utf8ValidUpToAux f1 l = utf8ValidUpToAux f2 l := by
  intro f1
  induction f1 with
  | zero =>
    intro f2 l h1 _
    have : l = [] := List.eq_nil_of_length_eq_zero (Nat.le_zero.mp h1)
    subst this
    cases f2 <;> simp [utf8ValidUpToAux, utf8DecodeOne]
  | succ n ih =>
    intro f2 l h1 h2
    cases l with
    | nil => cases f2 <;> simp [utf8ValidUpToAux, utf8DecodeOne]
    | cons b t =>
      cases f2 with
      | zero => simp at h2
      | succ m =>
        simp only [utf8ValidUpToAux]
        split
        · rfl
        · rename_i cp k heq
          have hb := utf8DecodeOne_bounds _ cp k heq
          have hlen : ((b :: t).drop k).length ≤ n := by
            simp only [List.length_drop]
            simp only [List.length_cons] at h1 hb ⊢
            omega
          have hlen2 : ((b :: t).drop k).length ≤ m := by
            simp only [List.length_drop]
            simp only [List.length_cons] at h2 hb ⊢
            omega
          rw [ih m _ hlen hlen2]

/-! ## Supporting lemmas: the safe-text view -/

theorem maxLengthOf_le (l : List Nat) : maxLengthOf l ≤ l.length := by
  unfold maxLengthOf
  split
  · exact Nat.le_refl _
  · exact utf8ValidUpTo_le l

theorem isSafeOf_iff (l : List Nat) :
    isSafeOf l = true ↔ maxLengthOf l = l.length := by
  simp [isSafeOf]

theorem isSafeOf_valid (l : List Nat) :
    isSafeOf l = true → utf8IsValid l = true := by
  intro h
  rw [isSafeOf_iff] at h
  unfold maxLengthOf at h
  by_cases hv : utf8IsValid l = true
  · exact hv
  · exfalso
    simp only [hv, if_false, Bool.false_eq_true, if_neg] at h
    simp only [utf8IsValid, beq_iff_eq] at hv
    exact hv h

/-! ## Supporting definitions and lemmas: the line scan -/

/-- The line parses as a JSON value that has no `"dsn"` member. -/
def dsnFreeLine (jp : String → Option Json) (l : String) : Bool :=
  match jp l with
  | some h => (h.get "dsn").isNone
  | none => false

/-- The line either fails to parse or parses without a `"dsn"` member
(i.e. it cannot yield a descriptor nor a `dsn`-value error). -/
def lineNoDsnKey (jp : String → Option Json) (l : String) : Bool :=
  match jp l with
  | some h => (h.get "dsn").isNone
  | none => true

/-- The string value of the line's `"dsn"` member, when the line parses as
a JSON value carrying one. -/
def lineDsnStr (jp : String → Option Json) (l : String) : Option String :=
  ((jp l).bind (fun h => h.get "dsn")).bind Json.asStr

theorem dsnFreeLine_elim {jp : String → Option Json} {l : String}
    (h : dsnFreeLine jp l = true) :
    ∃ hd, jp l = some hd ∧ hd.get "dsn" = none := by
  unfold dsnFreeLine at h
  cases hjp : jp l with
  | none => rw [hjp] at h; simp at h
  | some hd =>
    rw [hjp] at h
    exact ⟨hd, rfl, Option.isNone_iff_eq_none.mp h⟩

theorem scan_lines_ne_invalid_count (jp : String → Option Json)
    (dp : String → Option Dsn) :
    ∀ (lines : List String) (n : Nat), n ≤ lines.length →
      scan_lines jp dp lines n ≠
        .error (.bodyErr .InvalidNumberOfLines) := by
  intro lines
  induction lines with
  | nil =>
    intro n hn
    have : n = 0 := Nat.le_zero.mp hn
    subst this
    simp [scan_lines]
  | cons l rest ih =>
    intro n hn
    cases n with
    | zero => simp [scan_lines]
    | succ m =>
      cases hjp : jp l with
      | none => simp [scan_lines, hjp]
      | some header =>
        cases hget : header.get "dsn" with
        | none =>
          simp only [scan_lines, hjp, hget]
          exact ih m (by simpa using hn)
        | some v =>
          cases hstr : v.asStr with
          | none => simp [scan_lines, hjp, hget, hstr]
          | some s =>
            cases hdp : dp s with
            | none => simp [scan_lines, hjp, hget, hstr, hdp]
            | some d => simp [scan_lines, hjp, hget, hstr, hdp]

theorem scan_lines_prefix_found (jp : String → Option Json)
    (dp : String → Option Dsn) :
    ∀ (pre : List String) (line : String) (post : List String) (n : Nat)
      (s : String) (d : Dsn),
      (∀ l ∈ pre, dsnFreeLine jp l = true) → pre.length < n →
      lineDsnStr jp line = some s → dp s = some d →
      scan_lines jp dp (pre ++ line :: post) n = .ok (some d) := by
  intro pre
  induction pre with
  | nil =>
    intro line post n s d _ hn hline hdp
    obtain ⟨hv, hbind, hstr⟩ := Option.bind_eq_some.mp hline
    obtain ⟨hd, hjp, hget⟩ := Option.bind_eq_some.mp hbind
    cases n with
    | zero => omega
    | succ m => simp [scan_lines, hjp, hget, hstr, hdp]
  | cons p pre ih =>
    intro line post n s d hfree hn hline hdp
    obtain ⟨hd, hjp, hget⟩ := dsnFreeLine_elim (hfree p (List.mem_cons_self p pre))
    cases n with
    | zero => omega
    | succ m =>
      simp only [List.cons_append, scan_lines, hjp, hget]
      exact ih line post m s d (fun l hl => hfree l (List.mem_cons_of_mem p hl))
        (by simpa using hn) hline hdp

theorem scan_lines_dsnFree (jp : String → Option Json)
    (dp : String → Option Dsn) :
    ∀ (lines : List String) (n : Nat), n ≤ lines.length →
      (∀ l ∈ lines.take n, dsnFreeLine jp l = true) →
      scan_lines jp dp lines n = .ok none := by
  intro lines
  induction lines with
  | nil =>
    intro n hn _
    have : n = 0 := Nat.le_zero.mp hn
    subst this
    simp [scan_lines]
  | cons l rest ih =>
    intro n hn hfree
    cases n with
    | zero => simp [scan_lines]
    | succ m =>
      obtain ⟨hd, hjp, hget⟩ :=
        dsnFreeLine_elim (hfree l (by simp [List.take_succ_cons]))
      simp only [scan_lines, hjp, hget]
      exact ih m (by simpa using hn)
        (fun x hx => hfree x (by simp [List.take_succ_cons, hx]))

theorem scan_lines_noKey_not_found (jp : String → Option Json)
    (dp : String → Option Dsn) :
    ∀ (lines : List String) (n : Nat),
      (∀ l ∈ lines.take n, lineNoDsnKey jp l = true) →
      ∀ d, scan_lines jp dp lines n ≠ .ok (some d) := by
  intro lines
  induction lines with
  | nil =>
    intro n _ d
    cases n <;> simp [scan_lines]
  | cons l rest ih =>
    intro n hkey d
    cases n with
    | zero => simp [scan_lines]
    | succ m =>
      have hl := hkey l (by simp [List.take_succ_cons])
      unfold lineNoDsnKey at hl
      cases hjp : jp l with
      | none => simp [scan_lines, hjp]
      | some header =>
        rw [hjp] at hl
        have hget : header.get "dsn" = none := Option.isNone_iff_eq_none.mp hl
        simp only [scan_lines, hjp, hget]
        exact ih m (fun x hx => hkey x (by simp [List.take_succ_cons, hx])) d

theorem scan_lines_take (jp : String → Option Json)
    (dp : String → Option Dsn) :
    ∀ (n : Nat) (lines : List String),
      scan_lines jp dp lines n = scan_lines jp dp (lines.take n) n := by
  intro n
  induction n with
  | zero => intro lines; simp [scan_lines]
  | succ m ih =>
    intro lines
    cases lines with
    | nil => simp
    | cons l rest =>
      simp only [List.take_succ_cons]
      cases hjp : jp l with
      | none => simp [scan_lines, hjp]
      | some header =>
        cases hget : header.get "dsn" with
        | none => simp only [scan_lines, hjp, hget]; exact ih rest
        | some v => simp [scan_lines, hjp, hget]

/-! ## Supporting lemmas: envelope construction and the handler pipeline -/

theorem try_new_ok_fields {jp : String → Option Json} {dp : String → Option Dsn}
    {body : String} {fb : List Nat} {sf : Bool} {xff : String}
    {env : SentryEnvelope}
    (h : try_new_from_body jp dp body fb sf xff = .ok env) :
    env.raw_body = fb ∧ env.is_safe = sf ∧ env.x_forwarded_for = xff := by
  simp only [try_new_from_body] at h
  cases hscan : scan_lines jp dp (rustLines body)
      (min (rustLines body).length 50) with
  | error e => rw [hscan] at h; exact Except.noConfusion h
  | ok o =>
    cases o with
    | none => rw [hscan] at h; exact Except.noConfusion h
    | some d =>
      rw [hscan] at h
      have := Except.ok.inj h
      rw [← this]
      exact ⟨rfl, rfl, rfl⟩

theorem try_new_ok_dsn {jp : String → Option Json} {dp : String → Option Dsn}
    {body : String} {fb : List Nat} {sf : Bool} {xff : String}
    {env : SentryEnvelope}
    (h : try_new_from_body jp dp body fb sf xff = .ok env) :
    scan_lines jp dp (rustLines body) (min (rustLines body).length 50) =
      .ok (some env.dsn) := by
  simp only [try_new_from_body] at h
  cases hscan : scan_lines jp dp (rustLines body)
      (min (rustLines body).length 50) with
  | error e => rw [hscan] at h; exact Except.noConfusion h
  | ok o =>
    cases o with
    | none => rw [hscan] at h; exact Except.noConfusion h
    | some d =>
      rw [hscan] at h
      have := Except.ok.inj h
      rw [← this]

theorem envelopeStage_ok_fields {jp : String → Option Json}
    {dp : String → Option Dsn} {cfg : Config} {req : InboundRequest}
    {env : SentryEnvelope}
    (h : envelopeStage jp dp cfg req = .ok env) :
    env.raw_body = req.body ∧ env.is_safe = isSafeOf req.body ∧
      env.x_forwarded_for = resolveXff cfg req := by
  simp only [envelopeStage] at h
  split at h
  · exact Except.noConfusion h
  · exact try_new_ok_fields h

theorem envelopeStage_ok_safe_valid {jp : String → Option Json}
    {dp : String → Option Dsn} {cfg : Config} {req : InboundRequest}
    {env : SentryEnvelope}
    (h : envelopeStage jp dp cfg req = .ok env) :
    env.is_safe = true → utf8IsValid env.raw_body = true := by
  intro hs
  obtain ⟨hraw, hsafe, _⟩ := envelopeStage_ok_fields h
  rw [hraw]
  exact isSafeOf_valid req.body (hsafe ▸ hs)

theorem forward_request_eq {e : SentryEnvelope}
    (h : e.is_safe = true → utf8IsValid e.raw_body = true) :
    forward_request e =
      some { method := "POST",
             uri := e.dsn.envelope_api_url ++ "?sentry_key=" ++
               e.dsn.public_key,
             contentType := "application/x-sentry-envelope",
             xForwardedFor := e.x_forwarded_for, body := e.raw_body } := by
  unfold forward_request
  cases hs : e.is_safe with
  | false => simp [hs]
  | true => simp [hs, h hs]

theorem tunnel_handler_stages {jp : String → Option Json}
    {dp : String → Option Dsn} {cfg : Config} {req : InboundRequest}
    {env : SentryEnvelope}
    (hgate : check_content_length req.contentLength = .ok ())
    (henv : envelopeStage jp dp cfg req = .ok env) :
    tunnel_handler jp dp cfg req = policyAndForward cfg env := by
  simp only [tunnel_handler, hgate, henv]

theorem tunnel_handler_inv {jp : String → Option Json}
    {dp : String → Option Dsn} {cfg : Config} {req : InboundRequest}
    (h : (tunnel_handler jp dp cfg req).invokedForward = true) :
    ∃ env, envelopeStage jp dp cfg req = .ok env ∧
      tunnel_handler jp dp cfg req = policyAndForward cfg env := by
  cases hgate : check_content_length req.contentLength with
  | error e =>
    exfalso
    simp [tunnel_handler, hgate, HandlerOutcome.invokedForward] at h
  | ok u =>
    cases u
    cases henv : envelopeStage jp dp cfg req with
    | error e =>
      exfalso
      simp [tunnel_handler, hgate, henv, HandlerOutcome.invokedForward] at h
    | ok env => exact ⟨env, rfl, tunnel_handler_stages hgate henv⟩

theorem policyAndForward_invoked {cfg : Config} {env : SentryEnvelope}
    (h : (policyAndForward cfg env).invokedForward = true) :
    cfg.project_id_is_allowed env.dsn.project_id = true ∧
      env.dsn_host_is_valid cfg.remote_hosts = true := by
  unfold policyAndForward at h
  cases hproj : cfg.project_id_is_allowed env.dsn.project_id with
  | false => simp [hproj, HandlerOutcome.invokedForward] at h
  | true =>
    cases hhost : env.dsn_host_is_valid cfg.remote_hosts with
    | false => simp [hproj, hhost, HandlerOutcome.invokedForward] at h
    | true => exact ⟨rfl, rfl⟩

/-! ## Claim theorems -/

/-- C5: for every byte buffer `B`, the safe-text-view computation is total
(it is a Lean function, defined on all inputs), its reported prefix length
is at most `B.length`, the safety flag is true iff the prefix length equals
`B.length`, and the empty buffer yields prefix length `0` with the flag
true. -/
theorem c5_safe_text_view_total :
    (∀ B : List Nat, maxLengthOf B ≤ B.length ∧
      (isSafeOf B = true ↔ maxLengthOf B = B.length)) ∧
    maxLengthOf ([] : List Nat) = 0 ∧ isSafeOf ([] : List Nat) = true := by
  refine ⟨fun B => ⟨maxLengthOf_le B, isSafeOf_iff B⟩, by decide, by decide⟩

/-- C10: for every input string (and arbitrary external JSON/descriptor
parsers), `try_new_from_body` never returns the `InvalidNumberOfLines`
error: the loop runs at most `min(number of lines, 50)` times, so
`lines.next()` always yields a line. -/
theorem c10_no_invalid_number_of_lines (jp : String → Option Json)
    (dp : String → Option Dsn) (body : String) (fb : List Nat) (sf : Bool)
    (xff : String) :
    notInvalidLineCount (try_new_from_body jp dp body fb sf xff) = true := by
  have h := scan_lines_ne_invalid_count jp dp (rustLines body)
    (min (rustLines body).length 50) (Nat.min_le_left _ _)
  simp only [try_new_from_body]
  cases hscan : scan_lines jp dp (rustLines body)
      (min (rustLines body).length 50) with
  | error e =>
    rw [hscan] at h
    cases e with
    | bodyErr be =>
      cases be
      · exact absurd rfl h
      all_goals simp [notInvalidLineCount]
    | headerErr e2 => simp [notInvalidLineCount]
    | dsnParseError => simp [notInvalidLineCount]
    | utf8Error => simp [notInvalidLineCount]
  | ok o => cases o <;> simp [notInvalidLineCount]

/-- C3: the RequestGate accepts exactly when a `Content-Length` header is
present, parses as an unsigned integer and is at most `MAX_CONTENT_SIZE`
(10,000,000); otherwise it rejects with `MissingContentLength` when absent,
`ContentIsTooBig` when over the maximum and `CouldNotParseContentLength`
when malformed; any such rejection makes `tunnel_handler` terminate with
that error for every possible body (the body is never consulted) and is
rendered as a 400 response. -/
theorem c3_request_gate (cl : Option String) :
    (check_content_length cl = .ok () ↔
      ∃ v n, cl = some v ∧ rustParseU64 v = some n ∧ n ≤ MAX_CONTENT_SIZE) ∧
    (cl = none → check_content_length cl = .error .MissingContentLength) ∧
    (∀ v n, cl = some v → rustParseU64 v = some n → MAX_CONTENT_SIZE < n →
      check_content_length cl = .error .ContentIsTooBig) ∧
    (∀ v, cl = some v → rustParseU64 v = none →
      check_content_length cl = .error .CouldNotParseContentLength) ∧
    (∀ e, check_content_length cl = .error e →
      ∀ (jp : String → Option Json) (dp : String → Option Dsn)
        (cfg : Config) (req : InboundRequest) (b : List Nat),
        req.contentLength = cl →
        tunnel_handler jp dp cfg { req with body := b } =
          .errorResp (.headerErr e) ∧ errorStatus (.headerErr e) = 400) := by
  refine ⟨?_, ?_, ?_, ?_, ?_⟩
  · constructor
    · intro h
      cases cl with
      | none => exact absurd h (by simp [check_content_length])
      | some v =>
        cases hp : rustParseU64 v with
        | none => simp [check_content_length, hp] at h
        | some n =>
          by_cases hn : n > MAX_CONTENT_SIZE
          · simp [check_content_length, hp, hn] at h
          · exact ⟨v, n, rfl, hp, by omega⟩
    · rintro ⟨v, n, rfl, hp, hle⟩
      have hn : ¬ n > MAX_CONTENT_SIZE := by omega
      simp [check_content_length, hp, hn]
  · intro h; subst h; rfl
  · intro v n hv hp hn
    subst hv
    simp [check_content_length, hp, hn]
  · intro v hv hp
    subst hv
    simp [check_content_length, hp]
  · intro e he jp dp cfg req b hcl
    refine ⟨?_, rfl⟩
    have hgate :
        check_content_length
          ({ req with body := b } : InboundRequest).contentLength =
          .error e := by
      show check_content_length req.contentLength = .error e
      rw [hcl]; exact he
    simp [tunnel_handler, hgate]

/-- Witness for C3 at concrete header values: absent, oversized, malformed
and accepted. -/
theorem c3_request_gate_witness :
    check_content_length (some "10000001") = .error .ContentIsTooBig ∧
    check_content_length none = .error .MissingContentLength ∧
    check_content_length (some "abc") = .error .CouldNotParseContentLength ∧
    check_content_length (some "100") = .ok () :=
  ⟨(c3_request_gate (some "10000001")).2.2.1 "10000001" 10000001 rfl
      (by decide) (by decide),
   (c3_request_gate none).2.1 rfl,
   (c3_request_gate (some "abc")).2.2.2.1 "abc" rfl (by decide),
   (c3_request_gate (some "100")).1.mpr ⟨"100", 100, rfl, by decide, by decide⟩⟩

/-- C1: the Forwarder is invoked only if both policy checks pass (the
project identifier is in the allow-list and the host equals an entry of the
host list, by case-sensitive string equality); when the envelope stage
succeeded but a check fails, the request terminates with the corresponding
error and nothing is forwarded. -/
theorem c1_policy_gates_forwarding (jp : String → Option Json)
    (dp : String → Option Dsn) (cfg : Config) (req : InboundRequest) :
    ((tunnel_handler jp dp cfg req).invokedForward = true →
      ∃ env, envelopeStage jp dp cfg req = .ok env ∧
        cfg.project_id_is_allowed env.dsn.project_id = true ∧
        env.dsn_host_is_valid cfg.remote_hosts = true) ∧
    (∀ env, envelopeStage jp dp cfg req = .ok env →
      check_content_length req.contentLength = .ok () →
      cfg.project_id_is_allowed env.dsn.project_id = false →
      tunnel_handler jp dp cfg req =
        .errorResp (.bodyErr .InvalidProjectId)) ∧
    (∀ env, envelopeStage jp dp cfg req = .ok env →
      check_content_length req.contentLength = .ok () →
      cfg.project_id_is_allowed env.dsn.project_id = true →
      env.dsn_host_is_valid cfg.remote_hosts = false →
      tunnel_handler jp dp cfg req =
        .errorResp (.headerErr .InvalidHost)) := by
  refine ⟨?_, ?_, ?_⟩
  · intro h
    obtain ⟨env, henv, heq⟩ := tunnel_handler_inv h
    rw [heq] at h
    obtain ⟨hp, hh⟩ := policyAndForward_invoked h
    exact ⟨env, henv, hp, hh⟩
  · intro env henv hgate hproj
    rw [tunnel_handler_stages hgate henv]
    simp [policyAndForward, hproj]
  · intro env henv hgate hproj hhost
    rw [tunnel_handler_stages hgate henv]
    simp [policyAndForward, hproj, hhost]

/-- Witness for C1: the concrete forwarding run of the spec §8 scenario
(`hosts = [host.example]`, `projects = [42]`). -/
theorem c1_policy_gates_forwarding_witness :
    ∃ env, envelopeStage testJp testDp cfg0 req0 = .ok env ∧
      cfg0.project_id_is_allowed env.dsn.project_id = true ∧
      env.dsn_host_is_valid cfg0.remote_hosts = true :=
  (c1_policy_gates_forwarding testJp testDp cfg0 req0).1 (by decide)

/-- C6: the project-identifier check is evaluated before the host check, so
when both fail the surfaced error is `InvalidProjectId` (ProjectNotAllowed),
not `InvalidHost`. -/
theorem c6_project_check_first (jp : String → Option Json)
    (dp : String → Option Dsn) (cfg : Config) (req : InboundRequest)
    (env : SentryEnvelope) :
    envelopeStage jp dp cfg req = .ok env →
    check_content_length req.contentLength = .ok () →
    cfg.project_id_is_allowed env.dsn.project_id = false →
    env.dsn_host_is_valid cfg.remote_hosts = false →
    tunnel_handler jp dp cfg req = .errorResp (.bodyErr .InvalidProjectId) ∧
      tunnel_handler jp dp cfg req ≠ .errorResp (.headerErr .InvalidHost) := by
  intro henv hgate hproj _
  rw [tunnel_handler_stages hgate henv]
  constructor
  · simp [policyAndForward, hproj]
  · simp [policyAndForward, hproj]

/-- Witness for C6: both checks fail concretely
(`hosts = [other.example]`, `projects = [7]`, descriptor host
`host.example`, project `42`); the surfaced error is `InvalidProjectId`. -/
theorem c6_project_check_first_witness :
    tunnel_handler testJp testDp cfgBad req0 =
      .errorResp (.bodyErr .InvalidProjectId) ∧
    tunnel_handler testJp testDp cfgBad req0 ≠
      .errorResp (.headerErr .InvalidHost) :=
  c6_project_check_first testJp testDp cfgBad req0 env0 (by decide)
    (by decide) (by decide) (by decide)

/-- C2: whenever the handler reaches the Forwarder, the outbound request is
a `POST` to the descriptor's envelope API URL with `?sentry_key=<public
key>` appended, carries `Content-Type: application/x-sentry-envelope` and
`X-Forwarded-For: <resolved client address>`, and its body is exactly the
original inbound byte buffer, regardless of the safety flag (and the
`unwrap` inside the body construction never panics on
handler-produced envelopes). -/
theorem c2_forward_request_shape (jp : String → Option Json)
    (dp : String → Option Dsn) (cfg : Config) (req : InboundRequest) :
    tunnel_handler jp dp cfg req ≠ .forwardPanic ∧
    (∀ r, tunnel_handler jp dp cfg req = .forwarded r →
      r.method = "POST" ∧
      r.contentType = "application/x-sentry-envelope" ∧
      r.xForwardedFor = resolveXff cfg req ∧
      r.body = req.body ∧
      ∃ env, envelopeStage jp dp cfg req = .ok env ∧
        env.raw_body = req.body ∧
        r.uri = env.dsn.envelope_api_url ++ "?sentry_key=" ++
          env.dsn.public_key) := by
  constructor
  · intro h
    have hinv : (tunnel_handler jp dp cfg req).invokedForward = true := by
      rw [h]; rfl
    obtain ⟨env, henv, heq⟩ := tunnel_handler_inv hinv
    rw [heq] at h
    have hfr := forward_request_eq (envelopeStage_ok_safe_valid henv)
    unfold policyAndForward at h
    split at h
    · split at h
      · rw [hfr] at h
        exact HandlerOutcome.noConfusion h
      · exact HandlerOutcome.noConfusion h
    · exact HandlerOutcome.noConfusion h
  · intro r hr
    have hinv : (tunnel_handler jp dp cfg req).invokedForward = true := by
      rw [hr]; rfl
    obtain ⟨env, henv, heq⟩ := tunnel_handler_inv hinv
    rw [heq] at hr
    obtain ⟨hraw, hsafe, hxff⟩ := envelopeStage_ok_fields henv
    have hfr := forward_request_eq (envelopeStage_ok_safe_valid henv)
    unfold policyAndForward at hr
    split at hr
    · split at hr
      · rw [hfr] at hr
        have hr2 := HandlerOutcome.forwarded.inj hr
        rw [← hr2]
        exact ⟨rfl, rfl, hxff, hraw, env, henv, hraw, rfl⟩
      · exact HandlerOutcome.noConfusion hr
    · exact HandlerOutcome.noConfusion hr

/-- Witness for C2: the concrete forwarding run; the outbound request is
`POST https://host.example/api/42/envelope/?sentry_key=KEY` with the
original bytes as body. -/
theorem c2_forward_request_shape_witness :
    tunnel_handler testJp testDp cfg0 req0 = .forwarded r0 ∧
    (r0.method = "POST" ∧
     r0.contentType = "application/x-sentry-envelope" ∧
     r0.xForwardedFor = resolveXff cfg0 req0 ∧
     r0.body = req0.body ∧
     ∃ env, envelopeStage testJp testDp cfg0 req0 = .ok env ∧
       env.raw_body = req0.body ∧
       r0.uri = env.dsn.envelope_api_url ++ "?sentry_key=" ++
         env.dsn.public_key) :=
  ⟨by decide, (c2_forward_request_shape testJp testDp cfg0 req0).2 r0
    (by decide)⟩

/-- A safety-flag-true envelope with an empty body (the combination the
debug-escape branch actually fires on). -/
def e9safe : SentryEnvelope :=
  { raw_body := [], dsn := dsn0, is_safe := true, x_forwarded_for := "c" }

set_option maxRecDepth 4000 in
/-- Counterexample to C4 as stated: `cexBody`'s second line carries a valid
descriptor within the first 50 lines, yet the scanner does not return it —
the malformed first line aborts the scan with `InvalidHeaderJson`. -/
theorem c4_scanner_first_match_cex :
    rustLines cexBody = ["x", dsnLine] ∧
    (testJp "x").isNone = true ∧
    lineDsnStr testJp dsnLine = some dsnExampleStr ∧
    testDp dsnExampleStr = some dsn0 ∧
    try_new_from_body testJp testDp cexBody (asciiBytes cexBody) true "c" =
      .error (.bodyErr .InvalidHeaderJson) := by decide

/-- C4 (amended): if every line before the matching one parses as JSON
without a `dsn` key, and a line within the first 50 carries a valid
descriptor string, the scanner returns that descriptor; the lines after the
match are universally quantified, so the result is unaffected by them (they
are never examined); conversely, if none of the first 50 lines parses to a
JSON value with a `dsn` key, the scan fails even if line 51 carries one. -/
theorem c4_scanner_first_match (jp : String → Option Json)
    (dp : String → Option Dsn) (body : String) (fb : List Nat) (sf : Bool)
    (xff : String) :
    (∀ (pre : List String) (line : String) (post : List String)
       (s : String) (d : Dsn),
      rustLines body = pre ++ line :: post →
      (∀ l ∈ pre, dsnFreeLine jp l = true) →
      pre.length < 50 →
      lineDsnStr jp line = some s → dp s = some d →
      try_new_from_body jp dp body fb sf xff =
        .ok { raw_body := fb, dsn := d, is_safe := sf,
              x_forwarded_for := xff }) ∧
    ((∀ l ∈ (rustLines body).take 50, lineNoDsnKey jp l = true) →
      ∃ e, try_new_from_body jp dp body fb sf xff = .error e) := by
  constructor
  · intro pre line post s d hlines hfree hlen hline hdp
    have hn : pre.length < min (pre ++ line :: post).length 50 := by
      have : (pre ++ line :: post).length = pre.length + (post.length + 1) := by
        simp
      omega
    simp only [try_new_from_body, hlines]
    rw [scan_lines_prefix_found jp dp pre line post _ s d hfree hn hline hdp]
  · intro hkey
    cases hscan : scan_lines jp dp (rustLines body)
        (min (rustLines body).length 50) with
    | error e => exact ⟨e, by simp [try_new_from_body, hscan]⟩
    | ok o =>
      cases o with
      | none =>
        exact ⟨.bodyErr .MissingDsnKeyInHeader,
          by simp [try_new_from_body, hscan]⟩
      | some d =>
        exfalso
        have hsub : ∀ l ∈ (rustLines body).take
            (min (rustLines body).length 50), lineNoDsnKey jp l = true := by
          intro l hl
          apply hkey
          have heq : ((rustLines body).take 50).take
              (min (rustLines body).length 50) =
              (rustLines body).take (min (rustLines body).length 50) := by
            rw [List.take_take]
            congr 1
            omega
          rw [← heq] at hl
          exact List.take_subset _ _ hl
        exact scan_lines_noKey_not_found jp dp _ _ hsub d hscan

/-- Witness for C4 (amended): a one-line body holding the descriptor is
parsed into the expected envelope. -/
theorem c4_scanner_first_match_witness :
    try_new_from_body testJp testDp dsnLine (asciiBytes dsnLine) true "w" =
      .ok { raw_body := asciiBytes dsnLine, dsn := dsn0, is_safe := true,
            x_forwarded_for := "w" } :=
  (c4_scanner_first_match testJp testDp dsnLine (asciiBytes dsnLine) true
    "w").1 [] dsnLine [] dsnExampleStr dsn0 (by decide) (by decide)
    (by decide) (by decide) (by decide)

set_option maxRecDepth 4000 in
/-- Counterexample to C7 as stated: the code reports one and the same error
value, `MissingDsnKeyInHeader`, both when the 50-line cap is reached with
lines left over (60 lines of `{}`) and when the lines are exhausted below
the cap (3 lines of `{}`); there are no two distinct cap-exhaustion
errors. -/
theorem c7_single_exhaustion_error_cex :
    try_new_from_body testJp testDp body60 [] true "c" =
      .error (.bodyErr .MissingDsnKeyInHeader) ∧
    try_new_from_body testJp testDp body3 [] true "c" =
      .error (.bodyErr .MissingDsnKeyInHeader) ∧
    try_new_from_body testJp testDp body60 [] true "c" =
      try_new_from_body testJp testDp body3 [] true "c" := by decide

/-- C7 (amended): cap exhaustion — whether the 50-line cap is reached or
the lines run out first — always yields the single error value
`MissingDsnKeyInHeader`, provided each examined line parses as JSON without
the key; and the scan result only depends on the first `n` lines of its
budget `n` (for the 60-line scenario: exactly the first 50 lines). -/
theorem c7_single_exhaustion_error (jp : String → Option Json)
    (dp : String → Option Dsn) (body : String) (fb : List Nat) (sf : Bool)
    (xff : String) :
    ((∀ l ∈ (rustLines body).take 50, dsnFreeLine jp l = true) →
      try_new_from_body jp dp body fb sf xff =
        .error (.bodyErr .MissingDsnKeyInHeader)) ∧
    (∀ (lines : List String) (n : Nat),
      scan_lines jp dp lines n = scan_lines jp dp (lines.take n) n) := by
  constructor
  · intro hfree
    have hsub : ∀ l ∈ (rustLines body).take
        (min (rustLines body).length 50), dsnFreeLine jp l = true := by
      intro l hl
      apply hfree
      have heq : ((rustLines body).take 50).take
          (min (rustLines body).length 50) =
          (rustLines body).take (min (rustLines body).length 50) := by
        rw [List.take_take]
        congr 1
        omega
      rw [← heq] at hl
      exact List.take_subset _ _ hl
    have hscan := scan_lines_dsnFree jp dp (rustLines body)
      (min (rustLines body).length 50) (Nat.min_le_left _ _) hsub
    simp [try_new_from_body, hscan]
  · exact fun lines n => scan_lines_take jp dp n lines

set_option maxRecDepth 4000 in
/-- Witness for C7 (amended): the 60-lines-of-`{}` scenario fails with
`MissingDsnKeyInHeader`. -/
theorem c7_single_exhaustion_error_witness :
    try_new_from_body testJp testDp body60 [] true "c" =
      .error (.bodyErr .MissingDsnKeyInHeader) :=
  (c7_single_exhaustion_error testJp testDp body60 [] true "c").1 (by decide)

/-- Counterexample to C8 as stated: for the buffer `[255]` combined with
safety flag `true`, building the outbound body panics (the
`String::from_utf8(...).unwrap()` fails), so the construction is not total
over arbitrary buffer/flag combinations. -/
theorem c8_forward_never_fails_cex : forward_request e8 = none := by decide

/-- C8 (amended): for every envelope whose safety flag is true only if the
raw buffer is valid text — which holds for every envelope the handler
pipeline constructs (`envelopeStage_ok_safe_valid`) — building the outbound
request body and producing the debug log record always succeeds. -/
theorem c8_forward_never_fails (env : SentryEnvelope)
    (h : env.is_safe = true → utf8IsValid env.raw_body = true) :
    ∃ r, forward_request env = some r ∧ ∃ s, debugLogLine env r = s :=
  ⟨_, forward_request_eq h, _, rfl⟩

/-- Witness for C8 (amended) at a concrete valid-text envelope. -/
theorem c8_forward_never_fails_witness :
    ∃ r, forward_request env0 = some r ∧ ∃ s, debugLogLine env0 r = s :=
  c8_forward_never_fails env0 (fun _ => by decide)

/-- Counterexample to C9 as stated: for the empty-but-invalid combination
(safety flag `false`, empty body) the code logs the byte-count placeholder
`<0 bytes>`, not the debug-escaped raw bytes `[]` the claim asserts. -/
theorem c9_log_branch_cex :
    forward_request e9 =
      some { method := "POST",
             uri := "https://host.example/api/42/envelope/?sentry_key=KEY",
             contentType := "application/x-sentry-envelope",
             xForwardedFor := "c", body := [] } ∧
    debugLogBody e9 [] = "<0 bytes>" ∧
    rustDebugBytes e9.raw_body = "[]" ∧
    debugLogBody e9 [] ≠ rustDebugBytes e9.raw_body := by decide

/-- C9 (amended): the debug log picks its body representation by the safety
flag — a byte-count placeholder whenever the flag is false (including the
empty body), a byte-count placeholder marked `(safe)` when the flag is true
and the body nonempty (never the verbatim payload), and the debug-escaped
raw bytes exactly when the flag is true and the body empty. -/
theorem c9_log_branches (env : SentryEnvelope) (b : List Nat) :
    (env.is_safe = false →
      debugLogBody env b = "<" ++ toString b.length ++ " bytes>") ∧
    (env.is_safe = true → b = [] →
      debugLogBody env b = rustDebugBytes env.raw_body) ∧
    (env.is_safe = true → b ≠ [] →
      debugLogBody env b = "<" ++ toString b.length ++ " bytes> (safe)") := by
  refine ⟨?_, ?_, ?_⟩
  · intro h
    simp [debugLogBody, h]
  · intro h hb
    subst hb
    simp [debugLogBody, h]
  · intro h hb
    cases b with
    | nil => exact absurd rfl hb
    | cons x xs => simp [debugLogBody, h]

/-- Witness for C9 (amended): the safe-and-empty branch logs the
debug-escaped raw bytes. -/
theorem c9_log_branches_witness :
    debugLogBody e9safe [] = rustDebugBytes ([] : List Nat) :=
  (c9_log_branches e9safe []).2.1 rfl rfl
